import Mathlib

/-!
Verification of the Magic Eight Ball firmware core.

Shallow embedding of the repository's firmware source (M5Cardputer
"Magic Eight Ball", file src/firmware/src/main.cpp): the seed-derivation
functions, the response selection rule, the audio capture/playback
peripheral protocol and the interaction state machine driven by the
Arduino loop function.

Machine integers are modelled as Nat with explicit reduction modulo
2^32 (uint32_t), 2^16 (uint16_t counters) and 2^64 (uint64_t
accumulator) where the C code can wrap.  Signed 16-bit samples are
modelled as Int (the firmware's int16_t buffers), with the one
int16-specific wrap (abs of -32768) made explicit.
-/

namespace MagicEightBall

/-! Compile-time constants, main.cpp lines 24 to 29. -/

/-- Chunk count of the capture buffer
(C: `static constexpr size_t record_number = 134`). -/
def record_number : Nat := 134

/-- Samples per chunk (C: `static constexpr size_t record_length = 240`). -/
def record_length : Nat := 240

/-- Total capture-buffer capacity in samples
(C: `record_size = record_number * record_length`). -/
def record_size : Nat := record_number * record_length

/-- Capture sample rate, 16 kHz (C: `record_samplerate`). -/
def record_samplerate : Nat := 16000

/-- Modulus of `uint32_t` arithmetic. -/
def M32 : Nat := 2 ^ 32

/-- Modulus of `uint16_t` arithmetic. -/
def M16 : Nat := 2 ^ 16

/-- Modulus of `uint64_t` arithmetic. -/
def M64 : Nat := 2 ^ 64

/-! SeedEngine, text path: main.cpp lines 260 to 271.

The function `generateSeedFromText` iterates
`hash = ((hash << 5) + hash) + tolower(question[i])` over the question
bytes, xors in `millis()`, then applies the avalanche finisher.
Question characters are modelled as byte values (`Nat`); the state
machine only ever feeds printable ASCII `0x20..0x7E`. -/

/-- C-locale `tolower` on a byte value: fold `'A'..'Z'` to `'a'..'z'`. -/
def toLowerByte (c : Nat) : Nat := if 65 ≤ c ∧ c ≤ 90 then c + 32 else c

/-- One loop iteration of the text hash:
`hash = ((hash << 5) + hash) + tolower(c)` in `uint32_t` arithmetic. -/
def djb2Step (h c : Nat) : Nat := ((h <<< 5) + h + toLowerByte c) % M32

/-- The avalanche finisher of the text path:
`hash ^= hash >> 16; hash *= 0x85ebca6b; hash ^= hash >> 13` (uint32). -/
def avalanche (h0 : Nat) : Nat :=
  let h1 := h0 ^^^ (h0 >>> 16)
  let h2 := (h1 * 0x85ebca6b) % M32
  h2 ^^^ (h2 >>> 13)

/-- Embedding of `uint32_t generateSeedFromText(const String& question)`;
the call to `millis()` is made explicit as the `clock` argument. -/
def generateSeedFromText (question : List Nat) (clock : Nat) : Nat :=
  avalanche ((question.foldl djb2Step 5381) ^^^ (clock % M32))

/-- The spec's update rule as the source realizes it: multiply the
accumulator by 33, then add the lowercased character (DJB2). -/
def djb2SpecStep (h c : Nat) : Nat := (h * 33 + toLowerByte c) % M32

/-- The text-seed pipeline with the multiply-by-33-then-add update;
used to state the amended form of the spec claim. -/
def seedFromTextSpec (question : List Nat) (clock : Nat) : Nat :=
  avalanche ((question.foldl djb2SpecStep 5381) ^^^ (clock % M32))

/-- The update rule exactly as claim C2 words it:
`acc = acc*33 + acc + charCode` (that is, multiply by 34). -/
def djb2ClaimStep (h c : Nat) : Nat := (h * 33 + h + toLowerByte c) % M32

/-- The text-seed pipeline with the claim's literal update rule. -/
def seedFromTextClaim (question : List Nat) (clock : Nat) : Nat :=
  avalanche ((question.foldl djb2ClaimStep 5381) ^^^ (clock % M32))

/-! SeedEngine, audio path: main.cpp lines 274 to 305. -/

/-- Fuel-driven floor integer square root (digit-by-digit method), used to
model the C `sqrt()` call on exactly representable integer inputs.  It is
structurally recursive so that the kernel can evaluate it; `isqrt_eq_sqrt`
below shows it agrees with Mathlib's `Nat.sqrt`. -/
def isqrtFuel : Nat → Nat → Nat
  | 0, _ => 0
  | fuel + 1, n =>
    if n < 2 then n
    else if (2 * isqrtFuel fuel (n / 4) + 1) * (2 * isqrtFuel fuel (n / 4) + 1) ≤ n
    then 2 * isqrtFuel fuel (n / 4) + 1
    else 2 * isqrtFuel fuel (n / 4)

/-- Floor integer square root: `isqrt n * isqrt n ≤ n < (isqrt n + 1)^2`. -/
def isqrt (n : Nat) : Nat := isqrtFuel n n

/-- Embedding of `int16_t abs_val = abs(audio_data[i])`: taking `abs` of
the minimum `int16_t` value `-32768` overflows the 16-bit destination and
wraps back to `-32768`; every other value gives the usual absolute value. -/
def abs16 (x : Int) : Int := if x = -32768 then -32768 else |x|

/-- The peak-amplitude loop: `if (abs_val > peak) peak = abs_val` starting
from `int16_t peak = 0`. -/
def peakFold (samples : List Int) : Int :=
  samples.foldl (fun p x => if abs16 x > p then abs16 x else p) 0

/-- The zero-crossing test between two adjacent samples, zero counted as
non-negative: `(a < 0 && b >= 0) || (a >= 0 && b < 0)`. -/
def signChange (a b : Int) : Bool :=
  (decide (a < 0) && decide (0 ≤ b)) || (decide (0 ≤ a) && decide (b < 0))

/-- Count of adjacent sign changes over the sample sequence
(the `for (i = 1; ...)` loop of `generateSeedFromAudio`). -/
def zeroCrossings : List Int → Nat
  | a :: b :: rest => (if signChange a b then 1 else 0) + zeroCrossings (b :: rest)
  | _ => 0

/-- Embedding of the `uint64_t sum_squares` loop: accumulate
`(int32_t)audio_data[i] * audio_data[i]` with `uint64_t` wrap-around at
each addition. -/
def sumSquares (samples : List Int) : Nat :=
  samples.foldl (fun s x => (s + (x * x).toNat) % M64) 0

/-- Embedding of
`uint32_t generateSeedFromAudio(int16_t* audio_data, size_t num_samples)`;
`millis()` is the explicit `clock` argument, the sample array and length
are the `samples` list.  The combination is
`seed ^= peak; seed ^= zc << 8; seed ^= rms << 16; seed ^= millis()`,
with no avalanche finisher. -/
def generateSeedFromAudio (samples : List Int) (clock : Nat) : Nat :=
  let seed0 := 0 ^^^ (peakFold samples).toNat
  let seed1 := seed0 ^^^ (((zeroCrossings samples % M16) <<< 8) % M32)
  let rms := isqrt (sumSquares samples / samples.length)
  let seed2 := seed1 ^^^ ((rms <<< 16) % M32)
  seed2 ^^^ (clock % M32)

/-- The absolute amplitude of a sample as the 16-bit peak loop can see it:
`-32768` wraps and can never raise the running peak, so it contributes
nothing; every other sample contributes its true absolute value. -/
def wrapAbs (x : Int) : Nat := if x = -32768 then 0 else x.natAbs

/-- Closed-form statistics combination used to state the amended audio
claim: peak = max of the 16-bit-visible absolute values, zero-crossing
count reduced `mod 2^16`, RMS = floor sqrt of the 64-bit sum of squares
over the count. -/
def seedFromAudioSpec (samples : List Int) (clock : Nat) : Nat :=
  let peak := (samples.map wrapAbs).foldl max 0
  let zc := zeroCrossings samples % M16
  let rms := isqrt (((samples.map fun x => x.natAbs * x.natAbs).sum % M64) / samples.length)
  (peak ^^^ ((zc <<< 8) % M32) ^^^ ((rms <<< 16) % M32)) ^^^ (clock % M32)

/-- The audio statistics exactly as claim C5 words them: peak is the true
maximum absolute amplitude (no 16-bit wrap), zero-crossing count
unreduced. -/
def seedFromAudioClaim (samples : List Int) (clock : Nat) : Nat :=
  let peak := (samples.map Int.natAbs).foldl max 0
  let zc := zeroCrossings samples
  let rms := isqrt (((samples.map fun x => x.natAbs * x.natAbs).sum % M64) / samples.length)
  (peak ^^^ ((zc <<< 8) % M32) ^^^ ((rms <<< 16) % M32)) ^^^ (clock % M32)

/-! SeedEngine, response selection: main.cpp lines 308 to 311.

The C function `uint8_t selectResponse(uint32_t seed)` reads the global
`responses` vector; its size is passed explicitly here.  The `uint8_t`
return type truncates `seed % responses.size()` modulo 256. -/

/-- Embedding of
`if (responses.size() == 0) return 0; return seed % responses.size();`
with the implicit `uint8_t` conversion on return. -/
def selectResponse (seed count : Nat) : Nat :=
  if count = 0 then 0 else (seed % count) % 256

/-! Data model and peripheral events.

The `Response` structure mirrors `struct Response` of main.cpp (strings
as byte lists).  The microphone/speaker peripheral calls made by the
firmware (`Mic.begin/end`, `Speaker.begin/end`) are recorded as an
explicit event trace so that the capture/playback exclusivity invariant
can be stated about every instant inside a tick. -/

/-- Mirrors `struct Response`: answer text plus optional audio and bitmap
paths (empty list = empty `String`, i.e. "not configured"). -/
structure Response where
  text : List Nat
  wav_path : List Nat
  bitmap_path : List Nat

/-- Mirrors
`enum AppState { IDLE, TEXT_INPUT, VOICE_INPUT, THINKING, SHOWING_ANSWER }`. -/
inductive AppState
  | IDLE
  | TEXT_INPUT
  | VOICE_INPUT
  | THINKING
  | SHOWING_ANSWER
deriving DecidableEq, Repr

/-- Audio-peripheral events, in the order the firmware issues them:
`M5Cardputer.Mic.begin()`, `M5Cardputer.Mic.end()`,
`M5Cardputer.Speaker.begin()`, `M5Cardputer.Speaker.end()`. -/
inductive Ev
  | micBegin
  | micEnd
  | spkBegin
  | spkEnd
deriving DecidableEq, Repr

/-- Effect of one peripheral event on the pair
(microphone enabled, speaker playing). -/
def applyEv : Bool × Bool → Ev → Bool × Bool
  | (_, s), Ev.micBegin => (true, s)
  | (_, s), Ev.micEnd => (false, s)
  | (m, _), Ev.spkBegin => (m, true)
  | (m, _), Ev.spkEnd => (m, false)

/-- Fold a list of peripheral events over the (mic, speaker) state. -/
def applyEvents (p : Bool × Bool) (evs : List Ev) : Bool × Bool := evs.foldl applyEv p

/-! PlaybackSession: main.cpp lines 460 to 522.

The function `playResponseAudio` degrades gracefully: every early-return
branch (empty path, unopenable file, file smaller than the 44-byte WAV
header, failed allocation, short read) produces no peripheral event; only
a fully valid clip stops the microphone, plays, and stops the speaker. -/

/-- Environment of one `playResponseAudio` call: whether `SD.open`
succeeds and the file size (`none` = file not found), whether the
`heap_caps_malloc` succeeds, whether `file.read` returns the full
payload. -/
structure PlayEnv where
  fileSize : Option Nat
  allocOk : Bool
  readOk : Bool

/-- Embedding of `void playResponseAudio(const String& wav_path)`: the
peripheral event trace of one call.  Mirrors the early returns of the C
function; the success path is
`Mic.end(); Speaker.begin(); ...playRaw...; Speaker.end()`. -/
def playResponseAudio (wav_path : List Nat) (env : PlayEnv) : List Ev :=
  if wav_path = [] then []
  else
    match env.fileSize with
    | none => []
    | some file_size =>
      if file_size < 44 then []
      else if env.allocOk = false then []
      else if env.readOk = false then []
      else [Ev.micEnd, Ev.spkBegin, Ev.spkEnd]

/-! InteractionStateMachine: main.cpp lines 46 to 54 and 602 to 753.

The free-standing globals of main.cpp become fields of `Machine`; one
call of `loop()` becomes the `step` function below.  The two display-only
globals (`cursor_visible`, `last_cursor_blink`) and the display calls are
omitted: they touch no modelled state.  `millis()` is a per-tick input
`now`; the microphone-data chunk a tick may deliver is the input
`chunk`. -/

/-- The firmware's mutable globals: `current_state`, `current_question`,
`current_response_idx`, `state_timer`, `audio_played`, `rec_record_idx`,
`draw_record_idx`, the `rec_data` sample buffer, and the peripheral
enable flags governed by the `Mic`/`Speaker` begin/end calls. -/
structure Machine where
  state : AppState
  question : List Nat
  responseIdx : Nat
  stateTimer : Nat
  audioPlayed : Bool
  recIdx : Nat
  drawIdx : Nat
  buf : Nat → Int
  micOn : Bool
  spkOn : Bool

/-- Mirrors `Keyboard_Class::KeysState`: the pressed printable word keys
plus the `del` and `enter` flags. -/
structure KeysState where
  word : List Nat
  del : Bool
  enter : Bool

/-- One tick's worth of operator and peripheral input:
`M5Cardputer.Keyboard.isChange()/isPressed()/keysState()`,
`M5Cardputer.BtnA.wasPressed()`, whether `Mic.record` succeeds and the
chunk it would deliver, `millis()`, and the SD/heap environment a
`playResponseAudio` call would see this tick. -/
structure Input where
  kbChange : Bool
  kbPressed : Bool
  keys : KeysState
  btnA : Bool
  micReady : Bool
  chunk : Nat → Int
  now : Nat
  env : PlayEnv

/-- Printable ASCII test `key >= 0x20 && key <= 0x7E`. -/
def isPrintable (k : Nat) : Bool := decide (0x20 ≤ k) && decide (k ≤ 0x7E)

/-- Embedding of
`M5Cardputer.Mic.record(rec_data, record_length, record_samplerate)`:
the firmware passes the buffer BASE pointer, so a successful call writes
the fresh chunk over samples `0 .. record_length-1`, leaving the rest of
the buffer untouched. -/
def micRecord (chunk : Nat → Int) (buf : Nat → Int) : Nat → Int :=
  fun i => if i < record_length then chunk i else buf i

/-- Case `IDLE` of `loop()`: first printable key starts text input; a
`BtnA` press (checked afterwards, in the same tick) starts voice input,
resetting `rec_record_idx = 2`, `draw_record_idx = 0` and calling
`Mic.begin()`. -/
def stepIdle (m : Machine) (i : Input) : Machine × List Ev :=
  let m1 :=
    if i.kbChange && i.kbPressed then
      match i.keys.word.find? isPrintable with
      | some k => { m with question := [k], state := AppState.TEXT_INPUT }
      | none => m
    else m
  if i.btnA then
    ({ m1 with state := AppState.VOICE_INPUT, recIdx := 2, drawIdx := 0,
               stateTimer := i.now }, [Ev.micBegin])
  else (m1, [])

/-- Case `TEXT_INPUT` of `loop()`: backspace deletes the last character
when the question is non-empty; Enter submits a non-empty question
(computing seed and response index); otherwise printable keys append.
The `BtnA` submit check runs afterwards in the same tick, on the
already-updated question. -/
def stepTextInput (rs : List Response) (m : Machine) (i : Input) : Machine × List Ev :=
  let m1 :=
    if i.kbChange && i.kbPressed then
      if i.keys.del && decide (m.question.length > 0) then
        { m with question := m.question.dropLast }
      else if i.keys.enter then
        if m.question.length > 0 then
          { m with responseIdx := selectResponse (generateSeedFromText m.question i.now) rs.length,
                   state := AppState.THINKING, stateTimer := i.now }
        else m
      else
        { m with question := m.question ++ i.keys.word.filter isPrintable }
    else m
  if i.btnA && decide (m1.question.length > 0) then
    ({ m1 with responseIdx := selectResponse (generateSeedFromText m1.question i.now) rs.length,
               state := AppState.THINKING, stateTimer := i.now }, [])
  else (m1, [])

/-- Case `VOICE_INPUT` of `loop()`: when the mic is enabled and
`Mic.record(rec_data, record_length, ...)` succeeds, the chunk lands at
the buffer base; while `rec_record_idx < record_number` the cursor
advances, otherwise the recording completes: `Mic.end()`, seed from the
whole `record_size`-sample buffer, response selection, and the transition
to THINKING. -/
def stepVoiceInput (rs : List Response) (m : Machine) (i : Input) : Machine × List Ev :=
  if m.micOn && i.micReady then
    if m.recIdx < record_number then
      ({ m with buf := micRecord i.chunk m.buf, recIdx := m.recIdx + 1,
                drawIdx := m.recIdx + 1 - 2 }, [])
    else
      ({ m with buf := micRecord i.chunk m.buf,
                responseIdx := selectResponse
                  (generateSeedFromAudio ((List.range record_size).map (micRecord i.chunk m.buf)) i.now)
                  rs.length,
                state := AppState.THINKING, stateTimer := i.now }, [Ev.micEnd])
  else (m, [])

/-- Case `THINKING` of `loop()`: after 2000 ms, move to SHOWING_ANSWER,
reset the timer and the `audio_played` flag. -/
def stepThinking (m : Machine) (i : Input) : Machine × List Ev :=
  if i.now - m.stateTimer > 2000 then
    ({ m with state := AppState.SHOWING_ANSWER, stateTimer := i.now, audioPlayed := false }, [])
  else (m, [])

/-- Case `SHOWING_ANSWER` of `loop()`: on the first tick in this state,
play the selected response's audio (blocking inside the tick) and reset
the timer; then a `BtnA` press or the 5000 ms timeout returns to IDLE. -/
def stepShowingAnswer (rs : List Response) (m : Machine) (i : Input) : Machine × List Ev :=
  let m1 := if m.audioPlayed = false
    then { m with audioPlayed := true, stateTimer := i.now } else m
  let evs := if m.audioPlayed = false
    then playResponseAudio (rs.getD m.responseIdx ⟨[], [], []⟩).wav_path i.env else []
  if i.btnA || decide (i.now - m1.stateTimer > 5000) then
    ({ m1 with state := AppState.IDLE, question := [], audioPlayed := false }, evs)
  else (m1, evs)

/-- The `switch (current_state)` dispatch of `loop()`. -/
def stepCore (rs : List Response) (m : Machine) (i : Input) : Machine × List Ev :=
  match m.state with
  | AppState.IDLE => stepIdle m i
  | AppState.TEXT_INPUT => stepTextInput rs m i
  | AppState.VOICE_INPUT => stepVoiceInput rs m i
  | AppState.THINKING => stepThinking m i
  | AppState.SHOWING_ANSWER => stepShowingAnswer rs m i

/-- One call of `loop()`: the `switch` dispatch plus the effect of the
emitted peripheral events on the mic/speaker enable flags. -/
def step (rs : List Response) (m : Machine) (i : Input) : Machine × List Ev :=
  ({ (stepCore rs m i).1 with
      micOn := (applyEvents (m.micOn, m.spkOn) (stepCore rs m i).2).1,
      spkOn := (applyEvents (m.micOn, m.spkOn) (stepCore rs m i).2).2 },
   (stepCore rs m i).2)

/-- The machine state right after `setup()` returns: IDLE, empty question,
zeroed capture buffer, `rec_record_idx = 2`, speaker ended and microphone
begun (`Speaker.end(); Mic.begin();`). -/
def initMachine : Machine :=
  { state := AppState.IDLE, question := [], responseIdx := 0, stateTimer := 0,
    audioPlayed := false, recIdx := 2, drawIdx := 0, buf := fun _ => 0,
    micOn := true, spkOn := false }

/-- States of the interaction loop reachable from the post-`setup()` state
by any sequence of ticks. -/
inductive Reachable (rs : List Response) : Machine → Prop
  | init : Reachable rs initMachine
  | next {m : Machine} (h : Reachable rs m) (i : Input) : Reachable rs (step rs m i).1

/-- Concrete quiescent tick input: no keys, no button, no mic data. -/
def input0 : Input :=
  { kbChange := false, kbPressed := false,
    keys := { word := [], del := false, enter := false },
    btnA := false, micReady := false, chunk := fun _ => 0, now := 0,
    env := { fileSize := none, allocOk := true, readOk := true } }

/-- Tick input that presses `BtnA` only (starts voice input from IDLE). -/
def btnAInput : Input := { input0 with btnA := true }

/-- Tick input on which `Mic.record` succeeds, delivering an all-ones
chunk. -/
def micInput : Input := { input0 with micReady := true, chunk := fun _ => 1 }

/-- The machine after entering voice input from the post-`setup()` state
(`btnAInput` tick) followed by `n` successful all-ones capture ticks. -/
def voiceRun (rs : List Response) : Nat → Machine
  | 0 => (step rs initMachine btnAInput).1
  | n + 1 => (step rs (voiceRun rs n) micInput).1

/-- Concrete machine sitting in the THINKING state (used as witness
input). -/
def mThinking : Machine := { initMachine with state := AppState.THINKING, responseIdx := 7 }

/-- Concrete machine entering the SHOWING_ANSWER state (used as witness
input). -/
def mShowing : Machine := { initMachine with state := AppState.SHOWING_ANSWER, audioPlayed := false }

/-- Concrete playback environment whose clip is present and valid. -/
def envPlayable : PlayEnv := { fileSize := some 100, allocOk := true, readOk := true }

end MagicEightBall

namespace MagicEightBall

/-! Validation of the executable square root. -/

theorem isqrtFuel_spec (fuel : Nat) : ∀ n, n ≤ fuel →
    isqrtFuel fuel n * isqrtFuel fuel n ≤ n ∧ n < (isqrtFuel fuel n + 1) * (isqrtFuel fuel n + 1) := by
  induction fuel with
  | zero =>
    intro n hn
    interval_cases n
    simp [isqrtFuel]
  | succ f ih =>
    intro n hn
    rw [isqrtFuel]
    by_cases h2 : n < 2
    · rw [if_pos h2]
      interval_cases n <;> omega
    · rw [if_neg h2]
      have hle : n / 4 ≤ f := by omega
      have hspec := ih (n / 4) hle
      have h4 : 4 * (n / 4) ≤ n := by omega
      have h4' : n < 4 * (n / 4) + 4 := by omega
      by_cases hs : (2 * isqrtFuel f (n / 4) + 1) * (2 * isqrtFuel f (n / 4) + 1) ≤ n
      · rw [if_pos hs]
        exact ⟨hs, by nlinarith [hspec.1, hspec.2]⟩
      · rw [if_neg hs]
        exact ⟨by nlinarith [hspec.1, hspec.2], by omega⟩

theorem isqrt_eq_sqrt (n : Nat) : isqrt n = Nat.sqrt n := by
  have h := isqrtFuel_spec n n le_rfl
  have h1 : isqrt n ≤ Nat.sqrt n := Nat.le_sqrt.mpr h.1
  have h2 : Nat.sqrt n < isqrt n + 1 := Nat.sqrt_lt.mpr h.2
  omega

/-! Helper lemmas for the text path. -/

theorem djb2Step_eq_spec : djb2Step = djb2SpecStep := by
  funext h c
  unfold djb2Step djb2SpecStep
  have h5 : h <<< 5 = h * 32 := by rw [Nat.shiftLeft_eq]
  rw [h5]
  congr 1

/-! Helper lemmas for the audio path. -/

theorem peak_step (p x : Int) (hp : 0 ≤ p) :
    (if abs16 x > p then abs16 x else p).toNat = max p.toNat (wrapAbs x)
    ∧ 0 ≤ (if abs16 x > p then abs16 x else p) := by
  unfold abs16 wrapAbs
  by_cases hx : x = -32768
  · simp only [if_pos hx]
    have hlt : ¬((-32768 : Int) > p) := by omega
    simp only [if_neg hlt]
    omega
  · simp only [if_neg hx]
    rw [Int.abs_eq_natAbs]
    by_cases hgt : (x.natAbs : Int) > p
    · simp only [if_pos hgt]
      omega
    · simp only [if_neg hgt]
      omega

theorem peak_toNat (l : List Int) : ∀ (p : Int), 0 ≤ p →
    (l.foldl (fun p x => if abs16 x > p then abs16 x else p) p).toNat
      = (l.map wrapAbs).foldl max p.toNat := by
  induction l with
  | nil => intro p _; simp
  | cons x xs ih =>
    intro p hp
    simp only [List.foldl_cons, List.map_cons]
    have h := peak_step p x hp
    rw [ih _ h.2, h.1]

theorem sq_toNat (x : Int) : (x * x).toNat = x.natAbs * x.natAbs := by
  rw [← Int.natAbs_mul_self]
  exact Int.toNat_natCast _

theorem foldl_mod_add (f : Int → Nat) (l : List Int) : ∀ (a : Nat),
    l.foldl (fun s x => (s + f x) % M64) (a % M64) = (a + (l.map f).sum) % M64 := by
  induction l with
  | nil => intro a; simp
  | cons x xs ih =>
    intro a
    simp only [List.foldl_cons, List.map_cons, List.sum_cons]
    rw [Nat.mod_add_mod, ih (a + f x)]
    congr 1
    omega

theorem sumSquares_eq (l : List Int) :
    sumSquares l = (l.map fun x => x.natAbs * x.natAbs).sum % M64 := by
  unfold sumSquares
  have h1 : (fun (s : Nat) (x : Int) => (s + (x * x).toNat) % M64)
      = fun (s : Nat) (x : Int) => (s + x.natAbs * x.natAbs) % M64 := by
    funext s x
    rw [sq_toNat]
  rw [h1]
  have h0 : (0 : Nat) = 0 % M64 := by decide
  rw [h0, foldl_mod_add (fun x => x.natAbs * x.natAbs) l 0, Nat.zero_add]

/-! Helper lemmas about the peripheral event traces of one tick. -/

theorem playResponseAudio_cases (w : List Nat) (env : PlayEnv) :
    playResponseAudio w env = []
    ∨ playResponseAudio w env = [Ev.micEnd, Ev.spkBegin, Ev.spkEnd] := by
  unfold playResponseAudio
  rcases hf : env.fileSize with _ | sz
  · simp only [hf]
    split_ifs <;> simp
  · simp only [hf]
    split_ifs <;> simp

theorem stepIdle_events (m : Machine) (i : Input) :
    (stepIdle m i).2 = [] ∨ (stepIdle m i).2 = [Ev.micBegin] := by
  simp only [stepIdle]
  split_ifs <;> simp

theorem stepTextInput_events (rs : List Response) (m : Machine) (i : Input) :
    (stepTextInput rs m i).2 = [] := by
  simp only [stepTextInput]
  split_ifs <;> rfl

theorem stepVoiceInput_events (rs : List Response) (m : Machine) (i : Input) :
    (stepVoiceInput rs m i).2 = [] ∨ (stepVoiceInput rs m i).2 = [Ev.micEnd] := by
  simp only [stepVoiceInput]
  split_ifs <;> simp

theorem stepThinking_events (m : Machine) (i : Input) :
    (stepThinking m i).2 = [] := by
  simp only [stepThinking]
  split_ifs <;> rfl

theorem stepShowingAnswer_events (rs : List Response) (m : Machine) (i : Input) :
    (stepShowingAnswer rs m i).2 = []
    ∨ (stepShowingAnswer rs m i).2 = [Ev.micEnd, Ev.spkBegin, Ev.spkEnd] := by
  simp only [stepShowingAnswer]
  split_ifs <;>
    first
      | exact playResponseAudio_cases _ _
      | exact Or.inl rfl

theorem step_snd (rs : List Response) (m : Machine) (i : Input) :
    (step rs m i).2 = (stepCore rs m i).2 := rfl

theorem stepCore_at (rs : List Response) (m : Machine) (i : Input) :
    stepCore rs m i = match m.state with
      | AppState.IDLE => stepIdle m i
      | AppState.TEXT_INPUT => stepTextInput rs m i
      | AppState.VOICE_INPUT => stepVoiceInput rs m i
      | AppState.THINKING => stepThinking m i
      | AppState.SHOWING_ANSWER => stepShowingAnswer rs m i := rfl

theorem step_events_cases (rs : List Response) (m : Machine) (i : Input) :
    (step rs m i).2 = []
    ∨ (step rs m i).2 = [Ev.micBegin]
    ∨ (step rs m i).2 = [Ev.micEnd]
    ∨ (step rs m i).2 = [Ev.micEnd, Ev.spkBegin, Ev.spkEnd] := by
  rw [step_snd, stepCore_at]
  cases h : m.state
  case IDLE =>
    rcases stepIdle_events m i with he | he
    · exact Or.inl he
    · exact Or.inr (Or.inl he)
  case TEXT_INPUT =>
    exact Or.inl (stepTextInput_events rs m i)
  case VOICE_INPUT =>
    rcases stepVoiceInput_events rs m i with he | he
    · exact Or.inl he
    · exact Or.inr (Or.inr (Or.inl he))
  case THINKING =>
    exact Or.inl (stepThinking_events m i)
  case SHOWING_ANSWER =>
    rcases stepShowingAnswer_events rs m i with he | he
    · exact Or.inl he
    · exact Or.inr (Or.inr (Or.inr he))

theorem step_spkOn (rs : List Response) (m : Machine) (i : Input) :
    (step rs m i).1.spkOn = (applyEvents (m.micOn, m.spkOn) (step rs m i).2).2 := rfl

theorem reachable_spkOn_false (rs : List Response) {m : Machine} (h : Reachable rs m) :
    m.spkOn = false := by
  induction h with
  | init => rfl
  | next hr i ih =>
    rename_i m'
    rw [step_spkOn]
    rcases step_events_cases rs m' i with he | he | he | he <;>
      rw [he] <;> simp [applyEvents, applyEv, ih]

end MagicEightBall

namespace MagicEightBall

/-! Projection lemmas: `step` only adjusts the peripheral flags on top of
`stepCore`, so every control field of the two agrees. -/

theorem step_responseIdx (rs : List Response) (m : Machine) (i : Input) :
    (step rs m i).1.responseIdx = (stepCore rs m i).1.responseIdx := rfl

theorem step_state (rs : List Response) (m : Machine) (i : Input) :
    (step rs m i).1.state = (stepCore rs m i).1.state := rfl

theorem step_question (rs : List Response) (m : Machine) (i : Input) :
    (step rs m i).1.question = (stepCore rs m i).1.question := rfl

theorem step_stateTimer (rs : List Response) (m : Machine) (i : Input) :
    (step rs m i).1.stateTimer = (stepCore rs m i).1.stateTimer := rfl

theorem step_audioPlayed (rs : List Response) (m : Machine) (i : Input) :
    (step rs m i).1.audioPlayed = (stepCore rs m i).1.audioPlayed := rfl

theorem step_micOn (rs : List Response) (m : Machine) (i : Input) :
    (step rs m i).1.micOn = (applyEvents (m.micOn, m.spkOn) (stepCore rs m i).2).1 := rfl

theorem step_buf (rs : List Response) (m : Machine) (i : Input) :
    (step rs m i).1.buf = (stepCore rs m i).1.buf := rfl

/-! Per-state frame lemmas about the stored response index. -/

theorem stepIdle_responseIdx (m : Machine) (i : Input) :
    (stepIdle m i).1.responseIdx = m.responseIdx := by
  simp only [stepIdle]
  rcases hf : i.keys.word.find? isPrintable with _ | kk <;>
    simp only [hf] <;> split_ifs <;> rfl

theorem stepThinking_responseIdx (m : Machine) (i : Input) :
    (stepThinking m i).1.responseIdx = m.responseIdx := by
  simp only [stepThinking]
  split_ifs <;> rfl

theorem stepShowingAnswer_responseIdx (rs : List Response) (m : Machine) (i : Input) :
    (stepShowingAnswer rs m i).1.responseIdx = m.responseIdx := by
  simp only [stepShowingAnswer]
  split_ifs <;> rfl

theorem stepTextInput_changes (rs : List Response) (m : Machine) (i : Input)
    (hne : (stepTextInput rs m i).1.responseIdx ≠ m.responseIdx) :
    (stepTextInput rs m i).1.state = AppState.THINKING := by
  revert hne
  simp only [stepTextInput]
  split_ifs <;> simp

theorem stepVoiceInput_changes (rs : List Response) (m : Machine) (i : Input)
    (hne : (stepVoiceInput rs m i).1.responseIdx ≠ m.responseIdx) :
    (stepVoiceInput rs m i).1.state = AppState.THINKING := by
  revert hne
  simp only [stepVoiceInput]
  split_ifs <;> simp

theorem stepTextInput_submit (rs : List Response) (m : Machine) (i : Input)
    (hm : m.state = AppState.TEXT_INPUT)
    (ht : (stepTextInput rs m i).1.state = AppState.THINKING) :
    (stepTextInput rs m i).1.responseIdx
      = selectResponse (generateSeedFromText (stepTextInput rs m i).1.question i.now) rs.length := by
  revert ht
  simp only [stepTextInput]
  split_ifs <;> simp_all

theorem stepShowingAnswer_env (rs : List Response) (m : Machine) (i : Input) (p : PlayEnv) :
    (stepShowingAnswer rs m i).1 = (stepShowingAnswer rs m { i with env := p }).1 := by
  simp only [stepShowingAnswer]
  split_ifs <;> rfl

/-! The voice-capture run used by claim C1. -/

theorem voiceRun_succ (rs : List Response) (n : Nat) :
    voiceRun rs (n + 1) = (step rs (voiceRun rs n) micInput).1 := rfl

theorem voiceRun_inv (rs : List Response) (n : Nat) (hn : n ≤ 132) :
    (voiceRun rs n).state = AppState.VOICE_INPUT
    ∧ (voiceRun rs n).recIdx = 2 + n
    ∧ (voiceRun rs n).micOn = true
    ∧ (∀ j, record_length ≤ j → (voiceRun rs n).buf j = 0) := by
  induction n with
  | zero => exact ⟨rfl, rfl, rfl, fun j _ => rfl⟩
  | succ k ih =>
    obtain ⟨h1, h2, h3, h4⟩ := ih (by omega)
    have hcond : ((voiceRun rs k).micOn && micInput.micReady) = true := by rw [h3]; rfl
    have hlt : (voiceRun rs k).recIdx < record_number := by
      rw [h2]; unfold record_number; omega
    have hv : stepCore rs (voiceRun rs k) micInput
        = ({ voiceRun rs k with
                buf := micRecord micInput.chunk (voiceRun rs k).buf,
                recIdx := (voiceRun rs k).recIdx + 1,
                drawIdx := (voiceRun rs k).recIdx + 1 - 2 }, []) := by
      rw [stepCore_at, h1]
      unfold stepVoiceInput
      rw [if_pos hcond, if_pos hlt]
    refine ⟨?_, ?_, ?_, ?_⟩
    · show (step rs (voiceRun rs k) micInput).1.state = AppState.VOICE_INPUT
      rw [step_state, hv]
      exact h1
    · show (step rs (voiceRun rs k) micInput).1.recIdx = 2 + (k + 1)
      have hr : (step rs (voiceRun rs k) micInput).1.recIdx
          = (stepCore rs (voiceRun rs k) micInput).1.recIdx := rfl
      rw [hr, hv]
      simp only
      omega
    · show (step rs (voiceRun rs k) micInput).1.micOn = true
      rw [step_micOn, hv]
      simp only [applyEvents, List.foldl_nil]
      exact h3
    · intro j hj
      show (step rs (voiceRun rs k) micInput).1.buf j = 0
      rw [step_buf, hv]
      simp only
      unfold micRecord
      rw [if_neg (by unfold record_length at hj ⊢; omega)]
      exact h4 j hj

/-- Claim C1 (code bug evidence).  The claim says each successful capture
tick writes one chunk at the current write cursor and that the capture
completes after exactly 134 fills with the whole 134-by-240-sample buffer
holding captured data.  In the code, `Mic.record` is always given the
buffer base pointer: after entering voice input and then performing any
number of successful all-ones capture ticks, every sample at index 240 or
higher is still zero, the cursor starts at 2 so the first 132 ticks keep
the machine in VOICE_INPUT with `rec_record_idx = 2 + n`, and the 133rd
successful tick (not the 134th) completes the capture; at completion only
samples 0..239 hold microphone data (`buf 0 = 1`, `buf j = 0` for
`j ≥ 240`). -/
theorem capture_cursor_bug (rs : List Response) (n : Nat) (hn : n ≤ 132) (j : Nat)
    (hj : record_length ≤ j) :
    (voiceRun rs n).state = AppState.VOICE_INPUT
    ∧ (voiceRun rs n).recIdx = 2 + n
    ∧ (voiceRun rs 133).state = AppState.THINKING
    ∧ (voiceRun rs 133).buf j = 0
    ∧ (voiceRun rs 133).buf 0 = 1 := by
  obtain ⟨h1, h2, _, _⟩ := voiceRun_inv rs n hn
  obtain ⟨g1, g2, g3, g4⟩ := voiceRun_inv rs 132 (by omega)
  have hcond : ((voiceRun rs 132).micOn && micInput.micReady) = true := by rw [g3]; rfl
  have hge : ¬((voiceRun rs 132).recIdx < record_number) := by
    rw [g2]; unfold record_number; omega
  have hv : stepCore rs (voiceRun rs 132) micInput
      = ({ voiceRun rs 132 with
              buf := micRecord micInput.chunk (voiceRun rs 132).buf,
              responseIdx := selectResponse
                (generateSeedFromAudio
                  ((List.range record_size).map (micRecord micInput.chunk (voiceRun rs 132).buf))
                  micInput.now) rs.length,
              state := AppState.THINKING, stateTimer := micInput.now },
          [Ev.micEnd]) := by
    rw [stepCore_at, g1]
    unfold stepVoiceInput
    rw [if_pos hcond, if_neg hge]
  have e133 : voiceRun rs 133 = (step rs (voiceRun rs 132) micInput).1 := by
    have e : (133 : Nat) = 132 + 1 := rfl
    rw [e, voiceRun_succ]
  refine ⟨h1, h2, ?_, ?_, ?_⟩
  · rw [e133, step_state, hv]
  · rw [e133, step_buf, hv]
    simp only
    unfold micRecord
    rw [if_neg (by unfold record_length at hj ⊢; omega)]
    exact g4 j hj
  · rw [e133, step_buf, hv]
    simp only
    unfold micRecord
    rw [if_pos (by unfold record_length; omega)]
    rfl

/-- Witness for claim C1 at `n = 132`, `j = 240`. -/
theorem capture_cursor_bug_witness :
    132 ≤ 132 ∧ record_length ≤ 240
    ∧ ((voiceRun [] 132).state = AppState.VOICE_INPUT
      ∧ (voiceRun [] 132).recIdx = 2 + 132
      ∧ (voiceRun [] 133).state = AppState.THINKING
      ∧ (voiceRun [] 133).buf 240 = 0
      ∧ (voiceRun [] 133).buf 0 = 1) :=
  ⟨by decide, by decide, capture_cursor_bug [] 132 (by decide) 240 (by decide)⟩

end MagicEightBall

namespace MagicEightBall

/-- Counterexample to claim C2 as stated: with question "a" (byte 97) at
clock 0, the claim's literal update rule `acc = acc*33 + acc + charCode`
yields a different result than `generateSeedFromText`. -/
theorem generateSeedFromText_ne_claim_at_a :
    seedFromTextClaim [97] 0 ≠ generateSeedFromText [97] 0 := by decide

/-- Claim C2 (amended).  For every question string and every millisecond
clock value, `generateSeedFromText` equals the procedure: start the
accumulator at 5381; for each character, case-folded to lowercase, update
`acc = acc*33 + charCode` (equivalently `acc = acc*32 + acc + charCode`,
DJB2) in 32-bit arithmetic; xor the clock value; then apply the finisher
`acc ^= acc>>16; acc *= 0x85EBCA6B; acc ^= acc>>13`. -/
theorem generateSeedFromText_eq_spec (q : List Nat) (clock : Nat) :
    generateSeedFromText q clock = seedFromTextSpec q clock := by
  unfold generateSeedFromText seedFromTextSpec
  rw [djb2Step_eq_spec]

/-- Counterexample to claim C3 as stated: the capture buffer capacity is
not `2 s × 16 kHz = 32000` samples. -/
theorem record_size_ne_32000 : record_size ≠ 2 * record_samplerate := by decide

/-- Claim C3 (amended).  The fixed capture buffer holds
`record_number × record_length = 134 × 240 = 32160` signed 16-bit
samples: the least whole-chunk capacity that covers the intended
`2 s × 16 kHz = 32000` samples (it exceeds 32000 by less than one
240-sample chunk). -/
theorem record_size_value :
    record_size = 32160 ∧ record_size = record_number * record_length
    ∧ 2 * record_samplerate < record_size
    ∧ record_size < 2 * record_samplerate + record_length := by decide

/-- Claim C4 (confirmed).  From every reachable machine state, along the
peripheral-event trace emitted by one tick, no instant (no prefix of the
trace, `List.take k`) has the microphone enabled and the speaker playing
at the same time; moreover any tick that starts the speaker emits exactly
the trace `Mic.end(); Speaker.begin(); Speaker.end()`, so the microphone
is ended before playback starts within the same interaction. -/
theorem audio_exclusive (rs : List Response) (m : Machine) (h : Reachable rs m) (i : Input)
    (k : Nat) :
    (¬((applyEvents (m.micOn, m.spkOn) ((step rs m i).2.take k)).1 = true
      ∧ (applyEvents (m.micOn, m.spkOn) ((step rs m i).2.take k)).2 = true))
    ∧ (Ev.spkBegin ∈ (step rs m i).2 → (step rs m i).2 = [Ev.micEnd, Ev.spkBegin, Ev.spkEnd]) := by
  have hspk : m.spkOn = false := reachable_spkOn_false rs h
  rcases step_events_cases rs m i with he | he | he | he <;> rw [he] <;>
    rcases k with _ | _ | _ | n <;>
    simp [applyEvents, applyEv, hspk, List.take]

/-- Witness for claim C4 at the post-`setup()` state with a quiescent
tick and prefix length 1. -/
theorem audio_exclusive_witness :
    (¬((applyEvents (initMachine.micOn, initMachine.spkOn) ((step [] initMachine input0).2.take 1)).1 = true
      ∧ (applyEvents (initMachine.micOn, initMachine.spkOn) ((step [] initMachine input0).2.take 1)).2 = true))
    ∧ (Ev.spkBegin ∈ (step [] initMachine input0).2
      → (step [] initMachine input0).2 = [Ev.micEnd, Ev.spkBegin, Ev.spkEnd]) :=
  audio_exclusive [] initMachine Reachable.init input0 1

/-- Counterexample to claim C5 as stated: on the one-sample sequence
`[-32768]` at clock 0, the claim's formula (true peak absolute amplitude
32768) differs from `generateSeedFromAudio`, whose 16-bit `abs` wraps
`-32768` so the peak statistic stays 0. -/
theorem generateSeedFromAudio_ne_claim :
    seedFromAudioClaim [-32768] 0 ≠ generateSeedFromAudio [-32768] 0 := by decide

/-- Claim C5 (amended).  For every sample sequence and clock,
`generateSeedFromAudio` returns
`peak XOR (zc << 8) XOR ((rms << 16) mod 2^32) XOR (clock mod 2^32)` with
no avalanche finisher, where `peak` is the maximum of the 16-bit-wrapped
absolute values (a sample of exactly `-32768` wraps and contributes
nothing), `zc` is the count of sign changes between adjacent samples
(zero treated as non-negative) reduced modulo `2^16`, and `rms` is the
floor square root of the 64-bit-accumulated sum of squared samples
divided by the sample count. -/
theorem generateSeedFromAudio_eq_spec (samples : List Int) (clock : Nat) :
    generateSeedFromAudio samples clock = seedFromAudioSpec samples clock := by
  unfold generateSeedFromAudio seedFromAudioSpec peakFold
  rw [peak_toNat samples 0 le_rfl, sumSquares_eq]
  simp only [Int.toNat_zero, Nat.zero_xor]

/-- Counterexample to claim C6 as stated: with 300 responses and seed
299, `selectResponse` returns 43, not `299 mod 300 = 299`, because the
`uint8_t` return type truncates modulo 256. -/
theorem selectResponse_ne_mod : selectResponse 299 300 ≠ 299 % 300 := by decide

/-- Claim C6 (amended).  For every seed and every `responseCount ≥ 1`,
`selectResponse` returns a value in `[0, responseCount)`, and that value
equals `seed mod responseCount` whenever `responseCount ≤ 256` (the
`uint8_t` return truncates the remainder modulo 256 otherwise). -/
theorem selectResponse_range (seed count : Nat) (h : 1 ≤ count) :
    selectResponse seed count < count
    ∧ (count ≤ 256 → selectResponse seed count = seed % count) := by
  unfold selectResponse
  rw [if_neg (by omega)]
  have h1 : seed % count < count := Nat.mod_lt _ (by omega)
  constructor
  · rcases Nat.lt_or_ge (seed % count) 256 with h3 | h3
    · rw [Nat.mod_eq_of_lt h3]
      exact h1
    · have h4 : seed % count % 256 < 256 := Nat.mod_lt _ (by omega)
      omega
  · intro hc
    exact Nat.mod_eq_of_lt (by omega)

/-- Witness for claim C6 at seed 12, count 5. -/
theorem selectResponse_range_witness :
    1 ≤ 5 ∧ (selectResponse 12 5 < 5 ∧ (5 ≤ 256 → selectResponse 12 5 = 12 % 5)) :=
  ⟨by decide, selectResponse_range 12 5 (by decide)⟩

/-- Claim C7 (confirmed).  The stored response index never changes on a
THINKING or SHOWING_ANSWER tick; any tick that changes it is a
TEXT_INPUT or VOICE_INPUT tick whose resulting state is THINKING (the
submit transitions); and on the text submit transition the stored index
is exactly `selectResponse(generateSeedFromText(question, now))` for the
submitted question and that tick's clock. -/
theorem seed_once (rs : List Response) (m : Machine) (i : Input) :
    ((m.state = AppState.THINKING ∨ m.state = AppState.SHOWING_ANSWER) →
      (step rs m i).1.responseIdx = m.responseIdx)
    ∧ ((step rs m i).1.responseIdx ≠ m.responseIdx →
      (m.state = AppState.TEXT_INPUT ∨ m.state = AppState.VOICE_INPUT)
        ∧ (step rs m i).1.state = AppState.THINKING)
    ∧ (m.state = AppState.TEXT_INPUT → (step rs m i).1.state = AppState.THINKING →
      (step rs m i).1.responseIdx
        = selectResponse (generateSeedFromText (step rs m i).1.question i.now) rs.length) := by
  refine ⟨?_, ?_, ?_⟩
  · intro hs
    rw [step_responseIdx, stepCore_at]
    rcases hs with hs | hs <;> rw [hs]
    · exact stepThinking_responseIdx m i
    · exact stepShowingAnswer_responseIdx rs m i
  · intro hne
    rw [step_responseIdx, stepCore_at] at hne
    rw [step_state, stepCore_at]
    cases h : m.state <;> rw [h] at hne
    case IDLE => exact absurd (stepIdle_responseIdx m i) hne
    case TEXT_INPUT => exact ⟨Or.inl rfl, stepTextInput_changes rs m i hne⟩
    case VOICE_INPUT => exact ⟨Or.inr rfl, stepVoiceInput_changes rs m i hne⟩
    case THINKING => exact absurd (stepThinking_responseIdx m i) hne
    case SHOWING_ANSWER => exact absurd (stepShowingAnswer_responseIdx rs m i) hne
  · intro hm ht
    rw [step_state, stepCore_at, hm] at ht
    rw [step_responseIdx, step_question, stepCore_at, hm]
    exact stepTextInput_submit rs m i hm ht

/-- Witness for claim C7 at a concrete THINKING-state machine. -/
theorem seed_once_witness :
    (step [] mThinking input0).1.responseIdx = mThinking.responseIdx :=
  (seed_once [] mThinking input0).1 (Or.inl rfl)

/-- Claim C8 (confirmed).  `playResponseAudio` absorbs every failure: an
empty clip reference produces no peripheral event; an unopenable file
produces no peripheral event; a file smaller than the 44-byte minimum
produces no peripheral event; and on a SHOWING_ANSWER tick every control
field of the resulting machine state (state, response index, question,
timer, audio-played flag) is identical whatever the playback environment,
so no playback error value reaches the state machine or aborts the
interaction. -/
theorem playback_graceful (w : List Nat) (env : PlayEnv) (rs : List Response)
    (m : Machine) (i : Input) (p : PlayEnv) :
    (w = [] → playResponseAudio w env = [])
    ∧ (env.fileSize = none → playResponseAudio w env = [])
    ∧ (∀ sz, env.fileSize = some sz → sz < 44 → playResponseAudio w env = [])
    ∧ (m.state = AppState.SHOWING_ANSWER →
        (step rs m i).1.state = (step rs m { i with env := p }).1.state
        ∧ (step rs m i).1.responseIdx = (step rs m { i with env := p }).1.responseIdx
        ∧ (step rs m i).1.question = (step rs m { i with env := p }).1.question
        ∧ (step rs m i).1.stateTimer = (step rs m { i with env := p }).1.stateTimer
        ∧ (step rs m i).1.audioPlayed = (step rs m { i with env := p }).1.audioPlayed) := by
  refine ⟨?_, ?_, ?_, ?_⟩
  · intro hw
    unfold playResponseAudio
    rw [if_pos hw]
  · intro hf
    unfold playResponseAudio
    rw [hf]
    split_ifs <;> rfl
  · intro sz hf hsz
    unfold playResponseAudio
    rw [hf]
    simp [hsz]
  · intro hs
    have hcore : (stepCore rs m i).1 = (stepCore rs m { i with env := p }).1 := by
      rw [stepCore_at, stepCore_at, hs]
      exact stepShowingAnswer_env rs m i p
    refine ⟨?_, ?_, ?_, ?_, ?_⟩
    · rw [step_state, step_state, hcore]
    · rw [step_responseIdx, step_responseIdx, hcore]
    · rw [step_question, step_question, hcore]
    · rw [step_stateTimer, step_stateTimer, hcore]
    · rw [step_audioPlayed, step_audioPlayed, hcore]

/-- Witness for claim C8: empty reference, missing file, and a concrete
SHOWING_ANSWER tick whose resulting state ignores the playback
environment. -/
theorem playback_graceful_witness :
    playResponseAudio [] envPlayable = []
    ∧ playResponseAudio [47, 97] input0.env = []
    ∧ (step [] mShowing input0).1.state
        = (step [] mShowing { input0 with env := envPlayable }).1.state :=
  ⟨(playback_graceful [] envPlayable [] mShowing input0 envPlayable).1 rfl,
   (playback_graceful [47, 97] input0.env [] mShowing input0 envPlayable).2.1 rfl,
   ((playback_graceful [] envPlayable [] mShowing input0 envPlayable).2.2.2 rfl).1⟩

/-- Claim C9 (confirmed).  Because `selectResponse` returns a `uint8_t`,
its result is `(seed mod responseCount) mod 256` for every seed and every
`responseCount ≥ 1`; and whenever `responseCount > 256` there is a seed
for which the result differs from `seed mod responseCount`, so the spec's
mapping is realized only when `responseCount ≤ 256`. -/
theorem selectResponse_mod256 :
    (∀ seed count : Nat, 1 ≤ count → selectResponse seed count = seed % count % 256)
    ∧ (∀ count : Nat, 256 < count → ∃ seed, selectResponse seed count ≠ seed % count) := by
  constructor
  · intro seed count h
    unfold selectResponse
    rw [if_neg (by omega)]
  · intro count h
    refine ⟨256, ?_⟩
    unfold selectResponse
    rw [if_neg (by omega), Nat.mod_eq_of_lt (show 256 < count from h)]
    decide

/-- Witness for claim C9 at seed 7, count 10 and at count 300. -/
theorem selectResponse_mod256_witness :
    selectResponse 7 10 = 7 % 10 % 256 ∧ ∃ seed, selectResponse seed 300 ≠ seed % 300 :=
  ⟨selectResponse_mod256.1 7 10 (by decide), selectResponse_mod256.2 300 (by decide)⟩

/-- Claim C10 (confirmed).  `selectResponse` is total outside the spec's
precondition: with `responseCount = 0` it returns 0 for every seed, via
the explicit `if (responses.size() == 0) return 0` guard, with no division
by zero. -/
theorem selectResponse_zero_total (seed : Nat) : selectResponse seed 0 = 0 := by
  unfold selectResponse
  rw [if_pos rfl]

end MagicEightBall
